import Mathlib

/-!
Shallow embedding of `src/bot.py` (a Telegram file-storage bot): the debounced
batch-aggregation and channel-replication pipeline, the record store, and the
retrieval/maintenance commands, together with proofs of the specification
claims about them.
-/

namespace TgFileBot

/-- Media kinds distinguished by `_extract_file_info` in `bot.py`. -/
inductive MediaKind where
  | photo
  | video
  | document
deriving DecidableEq, Repr

/-- One extracted type/id dictionary from `_extract_file_info`. -/
structure FileInfo where
  kind : MediaKind
  fid : String
deriving DecidableEq, Repr

/-- An incoming Telegram message, with the attributes `bot.py` reads:
`photo` (a list of photo sizes; the code takes the last), `video`,
`document`, `caption`, `media_group_id`, and the uploading user. -/
structure TgMessage where
  photo : List String
  video : Option String
  document : Option String
  caption : Option String
  media_group_id : Option Nat
  file_name : Option String
  from_user : Nat
deriving DecidableEq, Repr

/-- Model of `_extract_file_info` (bot.py lines 153-157): probe `photo`
(non-empty list, last size), then `video`, then `document`; `None` otherwise. -/
def extractFileInfo (m : TgMessage) : Option FileInfo :=
  match m.photo.getLast? with
  | some f => some ⟨.photo, f⟩
  | none =>
    match m.video with
    | some f => some ⟨.video, f⟩
    | none =>
      match m.document with
      | some f => some ⟨.document, f⟩
      | none => none

/-- Python truthiness of `message.caption`: a non-`None`, non-empty string. -/
def captionText (m : TgMessage) : Option String :=
  match m.caption with
  | some s => if s = "" then none else some s
  | none => none

/-- The message filter registered in `main` (bot.py line 431):
`filters.VIDEO | filters.Document.ALL | filters.PHOTO`. Only messages
passing it reach `handle_any_file` and are ever buffered. -/
def passesMediaFilter (m : TgMessage) : Bool :=
  !m.photo.isEmpty || m.video.isSome || m.document.isSome

/-- The spec's phrase "event carrying extractable media": the event has a
photo, a video, or a document. -/
def hasExtractableMedia (m : TgMessage) : Bool :=
  !m.photo.isEmpty || m.video.isSome || m.document.isSome

/-- One row of the `files` table (bot.py lines 49-60).  The `file_id` TEXT
column holds either a bare provider id (`single` rows) or the JSON-serialized
list of extracted pairs (`batch` rows); serialization is modelled by a tagged
sum. -/
inductive FileData where
  | str (s : String)
  | batchData (l : List FileInfo)
deriving DecidableEq, Repr

structure FileRecord where
  rid : Nat
  user_id : Nat
  file_type : String
  file_id : FileData
  key : String
  original_name : String
  custom_note : String
  channel_msg_id : Option Nat
deriving DecidableEq, Repr

/-- The SQLite store: rows plus the AUTOINCREMENT counter. -/
structure Store where
  rows : List FileRecord
  nextId : Nat
deriving DecidableEq, Repr

def Store.empty : Store := ⟨[], 1⟩

/-- Does a row with this key exist (the UNIQUE index on `key`)? -/
def Store.hasKey (db : Store) (k : String) : Bool :=
  db.rows.any (fun r => r.key == k)

/-- Model of the `INSERT INTO files` statement (bot.py lines 164-166, 229-231): rejected by the
UNIQUE constraint when the key already exists, otherwise appends a row with a
fresh id (and NULL `channel_msg_id`) and returns `lastrowid`. -/
def Store.insertFile (db : Store) (uid : Nat) (ftype : String) (fdata : FileData)
    (k origName note : String) : Option (Nat × Store) :=
  if db.hasKey k then none
  else some (db.nextId,
    ⟨db.rows ++ [⟨db.nextId, uid, ftype, fdata, k, origName, note, none⟩], db.nextId + 1⟩)

/-- Model of `_update_channel_msg_id` (bot.py lines 201-211):
`UPDATE files SET channel_msg_id = ? WHERE id = ?`. -/
def Store.setChannelMsgId (db : Store) (dbFileId mid : Nat) : Store :=
  ⟨db.rows.map (fun r =>
      if r.rid == dbFileId then { r with channel_msg_id := some mid } else r),
    db.nextId⟩

/-- Model of `SELECT ... FROM files WHERE key = ?` (first matching row). -/
def Store.findByKey (db : Store) (k : String) : Option FileRecord :=
  db.rows.find? (fun r => r.key == k)

/-- Model of `SELECT ... FROM files WHERE key = ? AND user_id = ?`. -/
def Store.findByKeyUser (db : Store) (k : String) (uid : Nat) : Option FileRecord :=
  db.rows.find? (fun r => r.key == k && r.user_id == uid)

/-- The `key` charset of `generate_key` and of the validation in `handle_key`:
`string.ascii_letters + string.digits`. -/
def keyCharset : List Char :=
  "abcdefghijklmnopqrstuvwxyzABCDEFGHIJKLMNOPQRSTUVWXYZ0123456789".data

/-- The key-format check in `handle_key` (bot.py line 280):
`len(key) == 8 and all(c in charset for c in key)`. -/
def validKeyFormat (k : String) : Bool :=
  k.length == 8 && k.data.all (fun c => keyCharset.contains c)

/-- The full caption put on the first replicated message (bot.py lines 186,
196 via line 181, 239): the key line followed by the note line. -/
def fullCaption (k note : String) : String :=
  "🔑 Key: <code>" ++ k ++ "</code>\n📝 Note: " ++ note

/-- The key-only caption `caption_text_func` yields once `caption_sent` is
true (bot.py line 181): the key line alone. -/
def keyCaption (k : String) : String :=
  "🔑 Key: <code>" ++ k ++ "</code>"

/-- A physical message produced in the channel: its message id, the provider
file id it carried, and its caption. -/
structure SentMsg where
  mid : Nat
  fid : String
  caption : String
deriving DecidableEq, Repr

/-- An item the broadcast medium can batch into a multi-item post:
`info['type'] in ['photo', 'video']` (bot.py line 177). -/
def isGroupable (fi : FileInfo) : Bool :=
  fi.kind == .photo || fi.kind == .video

/-- The `for item in other_files` loop of `_send_batch_to_channel`
(bot.py lines 195-199).  `msgId n` is the channel id the transport assigns to
the `n`-th physical message of this artifact; `failOp n` says whether the
`n`-th send operation raises.  Each document is sent with
`caption_text_func()`, the first successful send while `caption_sent` is
still false records `channel_msg_id`, and a raise aborts the remaining
sends.  Returns the updated store, the messages sent by this loop, and
whether an exception was raised. -/
def sendDocs (db : Store) (dbFileId : Nat) (k note : String) (docs : List FileInfo)
    (msgId : Nat → Nat) (failOp : Nat → Bool) (opIdx physIdx : Nat)
    (captionSent : Bool) : Store × List SentMsg × Bool :=
  match docs with
  | [] => (db, [], false)
  | d :: rest =>
    if failOp opIdx then (db, [], true)
    else
      let cap := if captionSent then keyCaption k else fullCaption k note
      let msg : SentMsg := ⟨msgId physIdx, d.fid, cap⟩
      let db1 := if captionSent then db else db.setChannelMsgId dbFileId (msgId physIdx)
      let r := sendDocs db1 dbFileId k note rest msgId failOp (opIdx + 1) (physIdx + 1) true
      (r.1, msg :: r.2.1, r.2.2)

/-- Model of `_send_batch_to_channel` (bot.py lines 176-199).  Items are split into
groupable (photo/video) and other (document) files; the groupable items go
out as one `send_media_group` call (operation 0) whose member messages carry
the full caption on the first member and an empty caption on the rest, and
whose head message id is recorded as `channel_msg_id`; the documents are then
sent one at a time.  A raise anywhere propagates (third component `true`)
and aborts the remaining sends; messages already sent stand. -/
def sendBatchToChannel (db : Store) (dbFileId : Nat) (k note : String)
    (fileInfoList : List FileInfo) (msgId : Nat → Nat) (failOp : Nat → Bool) :
    Store × List SentMsg × Bool :=
  let mediaGroupItems := fileInfoList.filter isGroupable
  let otherFiles := fileInfoList.filter (fun fi => !isGroupable fi)
  if mediaGroupItems.isEmpty then
    sendDocs db dbFileId k note otherFiles msgId failOp 0 0 false
  else if failOp 0 then (db, [], true)
  else
    let groupMsgs := mediaGroupItems.enum.map (fun p =>
      (⟨msgId p.1, p.2.fid, if p.1 == 0 then fullCaption k note else ""⟩ : SentMsg))
    let db1 := db.setChannelMsgId dbFileId (msgId 0)
    let r := sendDocs db1 dbFileId k note otherFiles msgId failOp 1
      mediaGroupItems.length true
    (r.1, groupMsgs ++ r.2.1, r.2.2)

/-- The synthesized default group note built from the message count
(bot.py line 122). -/
def defaultGroupNote (n : Nat) : String :=
  "文件合集 (共 " ++ toString n ++ " 个)"

/-- The `group_note` computed by the loop at bot.py lines 125-127: the
caption of the first message whose `caption` is truthy, else the default. -/
def computeGroupNote (messages : List TgMessage) : String :=
  match messages.findSome? captionText with
  | some c => c
  | none => defaultGroupNote messages.length

/-- How a run of `process_file_batch` / `_handle_single_file` ended. -/
inductive BatchTag where
  | noMessages
  | noProcessable
  | saveFailed
  | channelFailed
  | success
deriving DecidableEq, Repr

/-- Observable result of one batch job: the store afterwards, the physical
channel messages sent, the reply text sent to the uploader's chat (if any),
and how the run ended. -/
structure BatchResult where
  db : Store
  sent : List SentMsg
  reply : Option String
  tag : BatchTag
deriving DecidableEq, Repr

/-- The degraded-success reply text of bot.py line 147. -/
def degradedBatchReply (k note : String) : String :=
  "⚠️ 文件合集存储成功但频道通知失败\n\n🔑 密钥: <code>" ++ k
    ++ "</code>\n📝 备注: " ++ note

/-- The full-success reply text of bot.py line 150. -/
def successBatchReply (k note : String) : String :=
  "✅ 文件合集已处理!\n\n🔑 密钥: <code>" ++ k ++ "</code>\n📝 备注: " ++ note
    ++ "\n\n您可以使用 /list 查看您的文件或 /update 修改备注"

/-- Model of `_handle_single_file` (bot.py lines 213-247): extract the one file
(silently return when there is none), synthesize `original_name`, take the
caption (if truthy) else the name as note, insert a `single`-kind row, send
one channel message with the full caption (operation 0) and record its id;
a raise after the insert leaves the row and reports degraded success. -/
def handleSingleFile (db : Store) (m : TgMessage) (k : String)
    (msgId : Nat → Nat) (failOp : Nat → Bool) : BatchResult :=
  match extractFileInfo m with
  | none => ⟨db, [], none, .noProcessable⟩
  | some fi =>
    let ftype := match fi.kind with
      | .photo => "photo" | .video => "video" | .document => "document"
    let origName := match fi.kind, m.file_name with
      | .photo, _ => ftype ++ "_" ++ toString m.from_user
      | _, some nm => nm
      | _, none => ftype ++ "_" ++ toString m.from_user
    let note := match captionText m with
      | some c => c
      | none => origName
    match db.insertFile m.from_user ftype (.str fi.fid) k origName note with
    | none => ⟨db, [], some "❌ 文件保存失败，请重试", .saveFailed⟩
    | some (dbFileId, db1) =>
      if failOp 0 then
        ⟨db1, [], some ("⚠️ 文件存储成功但频道通知失败\n\n🔑 密钥: <code>" ++ k
          ++ "</code>\n📝 备注: " ++ note), .channelFailed⟩
      else
        ⟨db1.setChannelMsgId dbFileId (msgId 0),
          [⟨msgId 0, fi.fid, fullCaption k note⟩],
          some ("✅ 文件已存储!\n\n🔑 密钥: <code>" ++ k ++ "</code>\n📝 备注: "
            ++ note ++ "\n\n您可以使用 /list 查看您的文件或 /update 修改备注"),
          .success⟩

/-- Model of `process_file_batch` (bot.py lines 105-150) after popping the buffered
messages.  `k` is the string `generate_key()` returned; `msgId`/`failOp`
model the channel transport as for `sendBatchToChannel`. -/
def processFileBatch (db : Store) (messages : List TgMessage) (userId : Nat)
    (k : String) (msgId : Nat → Nat) (failOp : Nat → Bool) : BatchResult :=
  if messages.isEmpty then ⟨db, [], none, .noMessages⟩
  else
    let isMediaGroup := messages.any (fun m => m.media_group_id.isSome)
    if h : messages.length == 1 && !isMediaGroup then
      handleSingleFile db (messages.head (by
        intro he; subst he; simp at h)) k msgId failOp
    else
      let groupNote := computeGroupNote messages
      let fileInfoList := messages.filterMap extractFileInfo
      if fileInfoList.isEmpty then ⟨db, [], none, .noProcessable⟩
      else
        match db.insertFile userId "batch" (.batchData fileInfoList) k
          "文件合集" groupNote with
        | none => ⟨db, [], some "❌ 文件合集保存失败，请重试。", .saveFailed⟩
        | some (dbFileId, db1) =>
          let r := sendBatchToChannel db1 dbFileId k groupNote fileInfoList msgId failOp
          if r.2.2 then ⟨r.1, r.2.1, some (degradedBatchReply k groupNote), .channelFailed⟩
          else ⟨r.1, r.2.1, some (successBatchReply k groupNote), .success⟩

/-! ### Debounce aggregator (`handle_any_file`, bot.py lines 251-262)

One owner's buffer and `run_once`-timer, evolved over a timestamped event
sequence.  `handle_any_file` appends the message to the buffer, removes any
pending job for the owner and schedules a fresh job `quietPeriod` units
later; a job that fires detaches the whole buffer and commits it. -/

/-- The delay of the `run_once` call at bot.py line 261 — the quiet period. -/
def quietPeriod : Nat := 5

/-- One owner's debounce state: the pending buffer, the armed job's deadline
(if any), and the batches committed so far, in order. -/
structure DebounceState where
  buffer : List TgMessage
  deadline : Option Nat
  commits : List (List TgMessage)
deriving Repr

def DebounceState.init : DebounceState := ⟨[], none, []⟩

/-- The armed job fires: the buffer is detached whole and handed to
`process_file_batch` as one commit. -/
def fireJob (s : DebounceState) : DebounceState :=
  ⟨[], none, s.commits ++ [s.buffer]⟩

/-- Model of `handle_any_file` for an event arriving at time `t`: any armed job whose
deadline lies strictly before `t` has already fired; then the message is
appended and the job is cancelled and re-armed at `t + quietPeriod`. -/
def submitEvent (s : DebounceState) (t : Nat) (m : TgMessage) : DebounceState :=
  let s1 := match s.deadline with
    | some d => if d < t then fireJob s else s
    | none => s
  ⟨s1.buffer ++ [m], some (t + quietPeriod), s1.commits⟩

/-- After the last event, the remaining armed job eventually fires. -/
def finalizeDebounce (s : DebounceState) : DebounceState :=
  match s.deadline with
  | some _ => fireJob s
  | none => s

/-- Run one owner's whole timestamped event sequence through the debounce
aggregator and let the final timer fire. -/
def runDebounce (evs : List (Nat × TgMessage)) : DebounceState :=
  finalizeDebounce (evs.foldl (fun s e => submitEvent s e.1 e.2) .init)

/-! ### Command handlers (`handle_key`, `update_note`, `delete_key`) -/

/-- A store access performed by a handler, for stating *when* the store is
consulted. -/
inductive StoreOp where
  | lookupKey (k : String)
  | lookupKeyUser (k : String) (uid : Nat)
deriving DecidableEq, Repr

/-- Observable result of one command: the store afterwards, the reply text,
the store operations performed, the channel caption-edits attempted, the
channel message-deletions attempted, and warning logs. -/
structure CmdResult where
  db : Store
  reply : String
  trace : List StoreOp
  edits : List (Nat × String)
  deletions : List Nat
  logs : List String
deriving DecidableEq, Repr

/-- Python truthiness of an optional integer column (`if channel_msg_id:`). -/
def optTruthy (o : Option Nat) : Bool :=
  o.getD 0 != 0

/-- Model of `update_note` (bot.py lines 348-380).  `args` are the command arguments;
`editOk` tells whether the channel `edit_message_caption` call (if attempted)
succeeds — on failure the handler only logs a warning. -/
def updateNote (db : Store) (userId : Nat) (args : List String) (editOk : Bool) :
    CmdResult :=
  match args with
  | k :: a :: rest =>
    let newNote := String.intercalate " " (a :: rest)
    match db.findByKeyUser k userId with
    | none =>
      ⟨db, "⚠️ 更新失败！文件不存在或您不是该文件的所有者",
        [.lookupKeyUser k userId], [], [], []⟩
    | some fd =>
      let db1 : Store := ⟨db.rows.map (fun r =>
          if r.rid == fd.rid then { r with custom_note := newNote } else r),
        db.nextId⟩
      let edits := if optTruthy fd.channel_msg_id && fd.file_type != "batch"
        then [(fd.channel_msg_id.getD 0, fullCaption k newNote)] else []
      let logs := if edits.isEmpty || editOk then [] else ["频道备注更新失败"]
      ⟨db1, "✅ 备注已更新为: " ++ newNote, [.lookupKeyUser k userId],
        edits, [], logs⟩
  | _ => ⟨db, "⚠️ 格式错误！请使用：/update [密钥] [新备注]", [], [], [], []⟩

/-- Model of `delete_key` (bot.py lines 382-411).  `delOk` tells whether the channel
`delete_message` call (if attempted) succeeds — on failure the handler only
logs a warning. -/
def deleteKey (db : Store) (userId : Nat) (args : List String) (delOk : Bool) :
    CmdResult :=
  match args with
  | [k] =>
    match db.findByKeyUser k userId with
    | none =>
      ⟨db, "⚠️ 删除失败！密钥不存在或您不是该文件的所有者。",
        [.lookupKeyUser k userId], [], [], []⟩
    | some fd =>
      let db1 : Store := ⟨db.rows.filter (fun r => !(r.key == k && r.user_id == userId)),
        db.nextId⟩
      let deletions := if optTruthy fd.channel_msg_id
        then [fd.channel_msg_id.getD 0] else []
      let logs := if deletions.isEmpty || delOk then []
        else ["无法删除频道消息"]
      ⟨db1, "✅ 密钥 <code>" ++ k ++ "</code> 及其关联文件已成功删除。",
        [.lookupKeyUser k userId], [], deletions, logs⟩
  | _ => ⟨db, "⚠️ 格式错误！请使用：/delete [密钥]", [], [], [], []⟩

/-- Model of `handle_key` (bot.py lines 278-324), up to the store lookup: the format
check happens before any database access; a malformed key is rejected with
no store operation, a well-formed key is looked up. -/
def handleKey (db : Store) (text : String) : CmdResult :=
  if !(validKeyFormat text) then
    ⟨db, "⚠️ 密钥格式错误！请输入8位字母数字组合", [], [], [], []⟩
  else
    match db.findByKey text with
    | none => ⟨db, "🔍 未找到匹配文件，请检查密钥是否正确", [.lookupKey text], [], [], []⟩
    | some _ => ⟨db, "", [.lookupKey text], [], [], []⟩

/-! ### Auxiliary definitions used to state and prove the claims -/

/-- The messages the `other_files` loop emits once the caption has already
been placed: each document goes out with the key-only caption, ids assigned
consecutively from physical index `phys`. -/
def keyCapMsgs (k : String) (msgId : Nat → Nat) : Nat → List FileInfo → List SentMsg
  | _, [] => []
  | phys, d :: rest => ⟨msgId phys, d.fid, keyCaption k⟩ :: keyCapMsgs k msgId (phys + 1) rest

/-- All consecutive gaps of a timestamped event list, starting from time `t`,
are shorter than the quiet period (and time moves forward). -/
def gapsOk : Nat → List (Nat × TgMessage) → Prop
  | _, [] => True
  | t, (t', _) :: rest => t ≤ t' ∧ t' < t + quietPeriod ∧ gapsOk t' rest

/-- The time of the last event of a timestamped list, defaulting to `t`. -/
def lastTime (t : Nat) (evs : List (Nat × TgMessage)) : Nat :=
  match evs with
  | [] => t
  | e :: rest => lastTime e.1 rest

/-- Sample photo message (one photo size `"p"`, no caption) from user 7. -/
def msgPhoto : TgMessage := ⟨["p"], none, none, none, none, none, 7⟩

/-- Sample document message (file id `"d"`, no caption) from user 7. -/
def msgDoc : TgMessage := ⟨[], none, some "d", none, none, none, 7⟩

/-- Sample message carrying no extractable media at all. -/
def msgBare : TgMessage := ⟨[], none, none, none, none, none, 7⟩

/-- Sample photo message carrying the caption `"final"`. -/
def msgPhotoCap : TgMessage := ⟨["q"], none, none, some "final", none, none, 7⟩

/-- A store already holding key `"AAAAAAAA"` for user 9. -/
def storeWithA : Store :=
  ⟨[⟨1, 9, "photo", .str "x", "AAAAAAAA", "name", "note", none⟩], 2⟩

/-- A store holding a replicated `photo` artifact and a replicated `batch`
artifact, both owned by user 9. -/
def storeTwo : Store :=
  ⟨[⟨1, 9, "photo", .str "x", "AAAAAAAA", "name", "note", some 5⟩,
    ⟨2, 9, "batch", .batchData [⟨.photo, "p"⟩], "CCCCCCCC", "文件合集", "note2", some 6⟩],
    3⟩

/-! ## Helper lemmas -/

theorem length_keyCaption (k : String) : (keyCaption k).length = k.length + 20 := by
  have h1 : ("🔑 Key: <code>" : String).length = 13 := rfl
  have h2 : ("</code>" : String).length = 7 := rfl
  simp only [keyCaption, String.length_append, h1, h2]
  omega

theorem length_fullCaption (k n : String) :
    (fullCaption k n).length = k.length + n.length + 29 := by
  have h1 : ("🔑 Key: <code>" : String).length = 13 := rfl
  have h2 : ("</code>\n📝 Note: " : String).length = 16 := rfl
  simp only [fullCaption, String.length_append, h1, h2]
  omega

theorem fullCaption_ne_empty (k n : String) : fullCaption k n ≠ "" := by
  intro h
  have h2 := congrArg String.length h
  have h3 : ("" : String).length = 0 := rfl
  rw [length_fullCaption, h3] at h2
  omega

theorem keyCaption_ne_empty (k : String) : keyCaption k ≠ "" := by
  intro h
  have h2 := congrArg String.length h
  have h3 : ("" : String).length = 0 := rfl
  rw [length_keyCaption, h3] at h2
  omega

theorem keyCaption_ne_fullCaption (k n : String) : keyCaption k ≠ fullCaption k n := by
  intro h
  have h2 := congrArg String.length h
  rw [length_keyCaption, length_fullCaption] at h2
  omega

theorem keyCapMsgs_caption (k : String) (msgId : Nat → Nat) :
    ∀ docs phys, ∀ m ∈ keyCapMsgs k msgId phys docs, m.caption = keyCaption k := by
  intro docs
  induction docs with
  | nil => intro phys m hm; simp [keyCapMsgs] at hm
  | cons d rest ih =>
    intro phys m hm
    simp only [keyCapMsgs, List.mem_cons] at hm
    rcases hm with hm | hm
    · rw [hm]
    · exact ih (phys + 1) m hm

theorem length_keyCapMsgs (k : String) (msgId : Nat → Nat) :
    ∀ docs phys, (keyCapMsgs k msgId phys docs).length = docs.length := by
  intro docs
  induction docs with
  | nil => intro phys; rfl
  | cons d rest ih => intro phys; simp [keyCapMsgs, ih]

theorem countP_keyCapMsgs_full (k n : String) (msgId : Nat → Nat)
    (docs : List FileInfo) (phys : Nat) :
    (keyCapMsgs k msgId phys docs).countP
      (fun m => m.caption == fullCaption k n) = 0 := by
  rw [List.countP_eq_zero]
  intro m hm
  have hc := keyCapMsgs_caption k msgId docs phys m hm
  simp [hc, keyCaption_ne_fullCaption k n]

theorem sendDocs_capSent_fst (db : Store) (i : Nat) (k n : String)
    (msgId : Nat → Nat) (failOp : Nat → Bool) :
    ∀ docs op phys, (sendDocs db i k n docs msgId failOp op phys true).1 = db := by
  intro docs
  induction docs with
  | nil => intro op phys; rfl
  | cons d rest ih =>
    intro op phys
    by_cases h : failOp op <;> simp [sendDocs, h, ih]

theorem sendDocs_noFail_capSent (db : Store) (i : Nat) (k n : String)
    (msgId : Nat → Nat) :
    ∀ docs op phys, sendDocs db i k n docs msgId (fun _ => false) op phys true
      = (db, keyCapMsgs k msgId phys docs, false) := by
  intro docs
  induction docs with
  | nil => intro op phys; rfl
  | cons d rest ih => intro op phys; simp [sendDocs, keyCapMsgs, ih]

theorem sendDocs_noFail_capFalse (db : Store) (i : Nat) (k n : String)
    (msgId : Nat → Nat) (d : FileInfo) (rest : List FileInfo) (op phys : Nat) :
    sendDocs db i k n (d :: rest) msgId (fun _ => false) op phys false
      = (db.setChannelMsgId i (msgId phys),
         ⟨msgId phys, d.fid, fullCaption k n⟩ :: keyCapMsgs k msgId (phys + 1) rest,
         false) := by
  simp [sendDocs, sendDocs_noFail_capSent]

theorem sendDocs_fst_cases (db : Store) (i : Nat) (k n : String)
    (msgId : Nat → Nat) (failOp : Nat → Bool) (docs : List FileInfo) (op phys : Nat) :
    (sendDocs db i k n docs msgId failOp op phys false).1 = db
      ∨ (sendDocs db i k n docs msgId failOp op phys false).1
          = db.setChannelMsgId i (msgId phys) := by
  cases docs with
  | nil => left; rfl
  | cons d rest =>
    by_cases h : failOp op
    · left; simp [sendDocs, h]
    · right; simp [sendDocs, h, sendDocs_capSent_fst]

theorem sendDocs_failFirst (db : Store) (i : Nat) (k n : String)
    (msgId : Nat → Nat) (failOp : Nat → Bool) (d : FileInfo) (rest : List FileInfo)
    (op phys : Nat) (c : Bool) (h : failOp op = true) :
    sendDocs db i k n (d :: rest) msgId failOp op phys c = (db, [], true) := by
  simp [sendDocs, h]

theorem enumFrom_map_caption_empty (k n : String) (msgId : Nat → Nat) :
    ∀ (xs : List FileInfo) (j : Nat),
      ∀ m ∈ (xs.enumFrom (j + 1)).map (fun p =>
          (⟨msgId p.1, p.2.fid, if p.1 == 0 then fullCaption k n else ""⟩ : SentMsg)),
        m.caption = "" := by
  intro xs
  induction xs with
  | nil => intro j m hm; simp at hm
  | cons x rest ih =>
    intro j m hm
    rw [List.enumFrom_cons, List.map_cons, List.mem_cons] at hm
    rcases hm with hm | hm
    · rw [hm]; simp
    · exact ih (j + 1) m hm

theorem sendBatch_noFail_media (db : Store) (i : Nat) (k n : String)
    (msgId : Nat → Nat) (l : List FileInfo) (x : FileInfo) (xs : List FileInfo)
    (h : l.filter isGroupable = x :: xs) :
    sendBatchToChannel db i k n l msgId (fun _ => false)
      = (db.setChannelMsgId i (msgId 0),
         ((x :: xs).enum.map fun p =>
             (⟨msgId p.1, p.2.fid, if p.1 == 0 then fullCaption k n else ""⟩ : SentMsg))
           ++ keyCapMsgs k msgId (x :: xs).length (l.filter fun fi => !isGroupable fi),
         false) := by
  simp [sendBatchToChannel, h, sendDocs_noFail_capSent]

theorem sendBatch_noFail_noMedia (db : Store) (i : Nat) (k n : String)
    (msgId : Nat → Nat) (l : List FileInfo) (d : FileInfo) (rest : List FileInfo)
    (hm : l.filter isGroupable = [])
    (hd : l.filter (fun fi => !isGroupable fi) = d :: rest) :
    sendBatchToChannel db i k n l msgId (fun _ => false)
      = (db.setChannelMsgId i (msgId 0),
         ⟨msgId 0, d.fid, fullCaption k n⟩ :: keyCapMsgs k msgId 1 rest,
         false) := by
  simp [sendBatchToChannel, hm, hd, sendDocs_noFail_capFalse]

theorem sendBatch_fst_cases (db : Store) (i : Nat) (k n : String)
    (msgId : Nat → Nat) (failOp : Nat → Bool) (l : List FileInfo) :
    (sendBatchToChannel db i k n l msgId failOp).1 = db
      ∨ (sendBatchToChannel db i k n l msgId failOp).1
          = db.setChannelMsgId i (msgId 0) := by
  by_cases hm : (l.filter isGroupable).isEmpty
  · simp only [sendBatchToChannel, hm, if_true]
    exact sendDocs_fst_cases db i k n msgId failOp _ 0 0
  · by_cases hf : failOp 0
    · left; simp [sendBatchToChannel, hm, hf]
    · right; simp [sendBatchToChannel, hm, hf, sendDocs_capSent_fst]

theorem filter_not_groupable_eq_self (l : List FileInfo)
    (hm : l.filter isGroupable = []) :
    l.filter (fun fi => !isGroupable fi) = l := by
  rw [List.filter_eq_self]
  intro a ha
  rw [List.filter_eq_nil_iff] at hm
  simp [hm a ha]

theorem sendBatch_failFirst (db : Store) (i : Nat) (k n : String)
    (msgId : Nat → Nat) (failOp : Nat → Bool) (l : List FileInfo)
    (hne : l ≠ []) (hf : failOp 0 = true) :
    sendBatchToChannel db i k n l msgId failOp = (db, [], true) := by
  by_cases hm : (l.filter isGroupable).isEmpty
  · have hself : l.filter (fun fi => !isGroupable fi) = l :=
      filter_not_groupable_eq_self l (by simpa using hm)
    cases hl : l with
    | nil => exact absurd hl hne
    | cons d rest =>
      subst hl
      simp only [sendBatchToChannel, hm, if_true]
      rw [hself]
      exact sendDocs_failFirst db i k n msgId failOp d rest 0 0 false hf
  · simp [sendBatchToChannel, hm, hf]

theorem insertFile_eq_some (db : Store) (uid : Nat) (ft : String) (fd : FileData)
    (k o no : String) (i : Nat) (db' : Store)
    (h : db.insertFile uid ft fd k o no = some (i, db')) :
    i = db.nextId
      ∧ db' = ⟨db.rows ++ [⟨db.nextId, uid, ft, fd, k, o, no, none⟩], db.nextId + 1⟩
      ∧ db.hasKey k = false := by
  unfold Store.insertFile at h
  cases hb : db.hasKey k with
  | true => rw [hb] at h; simp at h
  | false =>
    rw [hb] at h
    simp only [Bool.false_eq_true, if_false, Option.some.injEq, Prod.mk.injEq] at h
    exact ⟨h.1.symm, h.2.symm, rfl⟩

theorem findByKey_insertFile (db : Store) (uid : Nat) (ft : String) (fd : FileData)
    (k o no : String) (i : Nat) (db' : Store)
    (h : db.insertFile uid ft fd k o no = some (i, db')) :
    db'.findByKey k = some ⟨db.nextId, uid, ft, fd, k, o, no, none⟩ := by
  obtain ⟨-, hdb, hk⟩ := insertFile_eq_some db uid ft fd k o no i db' h
  subst hdb
  unfold Store.findByKey
  rw [List.find?_append]
  have hnone : db.rows.find? (fun r => r.key == k) = none := by
    rw [List.find?_eq_none]
    intro r hr
    unfold Store.hasKey at hk
    rw [List.any_eq_false] at hk
    exact fun hc => hk r hr hc
  rw [hnone]
  simp

theorem findByKey_setChannelMsgId (db : Store) (i m : Nat) (k : String) :
    (db.setChannelMsgId i m).findByKey k
      = (db.findByKey k).map
          (fun r => if r.rid == i then { r with channel_msg_id := some m } else r) := by
  unfold Store.setChannelMsgId Store.findByKey
  rw [List.find?_map]
  have hp : ((fun r : FileRecord => r.key == k) ∘
      (fun r : FileRecord => if r.rid == i then { r with channel_msg_id := some m } else r))
      = (fun r : FileRecord => r.key == k) := by
    funext r
    by_cases h : r.rid = i <;> simp [h]
  rw [hp]

theorem findByKey_rows_append (rows : List FileRecord) (nid : Nat) (row : FileRecord)
    (k : String) (h : ∀ r ∈ rows, (r.key == k) = false) (hkey : (row.key == k) = true) :
    Store.findByKey ⟨rows ++ [row], nid⟩ k = some row := by
  unfold Store.findByKey
  rw [List.find?_append]
  have hnone : rows.find? (fun r => r.key == k) = none := by
    rw [List.find?_eq_none]
    intro r hr
    simp [h r hr]
  rw [hnone]
  simp only [Option.none_or]
  exact List.find?_cons_of_pos _ hkey

/-- When a batch (two or more buffered messages) is processed,
`process_file_batch` takes the multi-file path. -/
theorem processFileBatch_batch (db : Store) (msgs : List TgMessage) (uid : Nat)
    (k : String) (msgId : Nat → Nat) (failOp : Nat → Bool)
    (hlen : 2 ≤ msgs.length) :
    processFileBatch db msgs uid k msgId failOp =
      (if (msgs.filterMap extractFileInfo).isEmpty then ⟨db, [], none, .noProcessable⟩
       else
         match db.insertFile uid "batch" (.batchData (msgs.filterMap extractFileInfo)) k
           "文件合集" (computeGroupNote msgs) with
         | none => ⟨db, [], some "❌ 文件合集保存失败，请重试。", .saveFailed⟩
         | some (dbFileId, db1) =>
           if (sendBatchToChannel db1 dbFileId k (computeGroupNote msgs)
               (msgs.filterMap extractFileInfo) msgId failOp).2.2 then
             ⟨(sendBatchToChannel db1 dbFileId k (computeGroupNote msgs)
                 (msgs.filterMap extractFileInfo) msgId failOp).1,
               (sendBatchToChannel db1 dbFileId k (computeGroupNote msgs)
                 (msgs.filterMap extractFileInfo) msgId failOp).2.1,
               some (degradedBatchReply k (computeGroupNote msgs)), .channelFailed⟩
           else
             ⟨(sendBatchToChannel db1 dbFileId k (computeGroupNote msgs)
                 (msgs.filterMap extractFileInfo) msgId failOp).1,
               (sendBatchToChannel db1 dbFileId k (computeGroupNote msgs)
                 (msgs.filterMap extractFileInfo) msgId failOp).2.1,
               some (successBatchReply k (computeGroupNote msgs)), .success⟩) := by
  have h1 : msgs.isEmpty = false := by
    cases msgs with
    | nil => simp at hlen
    | cons m rest => rfl
  have h2 : (msgs.length == 1) = false := by
    rw [beq_eq_false_iff_ne]
    omega
  unfold processFileBatch
  simp only [h1, Bool.false_eq_true, if_false, h2, Bool.false_and, dite_false]

/-! ## Claim C1 — caption placement on batch replication -/

/-- C1 counterexample: the claim says that for an artifact with at least one
groupable and at least one singleton item exactly one physical message
carries a non-empty caption.  On the batch `[photo, document]` the code
sends two messages with non-empty captions: the grouped head carries the
full key/note caption and the document carries the key-only caption
produced by `caption_text_func`, so the count of non-empty captions is 2,
not 1. -/
theorem c1_counterexample :
    ((sendBatchToChannel Store.empty 1 "K" "N"
        [⟨.photo, "p"⟩, ⟨.document, "d"⟩] (fun x => x) (fun _ => false)).2.1.countP
      (fun m => m.caption != "")) = 2 := by decide

/-- C1 (amended): for a batch with at least one groupable and at least one
singleton item, exactly one physical message carries the full key/note
caption and it is the first one sent; every later grouped-media message has
an empty caption, while every later singleton (document) message carries
the non-empty key-only caption rather than an empty one. -/
theorem batch_caption_placement (db : Store) (i : Nat) (k n : String)
    (msgId : Nat → Nat) (l : List FileInfo)
    (hg : ∃ fi ∈ l, isGroupable fi = true)
    (_hs : ∃ fi ∈ l, isGroupable fi = false) :
    ((sendBatchToChannel db i k n l msgId (fun _ => false)).2.1.countP
        (fun m => m.caption == fullCaption k n) = 1)
      ∧ ((sendBatchToChannel db i k n l msgId (fun _ => false)).2.1.head?.map
          SentMsg.caption = some (fullCaption k n))
      ∧ (∀ m ∈ (sendBatchToChannel db i k n l msgId (fun _ => false)).2.1.tail,
          m.caption = "" ∨ m.caption = keyCaption k)
      ∧ (∀ m ∈ (sendBatchToChannel db i k n l msgId (fun _ => false)).2.1.tail,
          m.caption ≠ fullCaption k n) := by
  obtain ⟨fg, hfg, hfg2⟩ := hg
  have hmem : fg ∈ l.filter isGroupable := List.mem_filter.mpr ⟨hfg, hfg2⟩
  cases hfil : l.filter isGroupable with
  | nil => rw [hfil] at hmem; simp at hmem
  | cons x xs =>
    rw [sendBatch_noFail_media db i k n msgId l x xs hfil]
    have henum : ((x :: xs).enum.map fun p =>
        (⟨msgId p.1, p.2.fid, if p.1 == 0 then fullCaption k n else ""⟩ : SentMsg))
        = (⟨msgId 0, x.fid, fullCaption k n⟩ : SentMsg) ::
            (xs.enumFrom 1).map (fun p =>
              (⟨msgId p.1, p.2.fid, if p.1 == 0 then fullCaption k n else ""⟩ : SentMsg)) := by
      rw [List.enum_cons]
      simp
    rw [henum]
    have htailcap : ∀ m ∈ (xs.enumFrom 1).map (fun p =>
        (⟨msgId p.1, p.2.fid, if p.1 == 0 then fullCaption k n else ""⟩ : SentMsg)),
        m.caption = "" :=
      enumFrom_map_caption_empty k n msgId xs 0
    refine ⟨?_, ?_, ?_, ?_⟩
    · have htail0 : List.countP (fun m => m.caption == fullCaption k n)
          ((xs.enumFrom 1).map (fun p =>
            (⟨msgId p.1, p.2.fid, if p.1 == 0 then fullCaption k n else ""⟩ : SentMsg))) = 0 := by
        rw [List.countP_eq_zero]
        intro m hm
        simp only [htailcap m hm, beq_iff_eq]
        exact fun hc => fullCaption_ne_empty k n hc.symm
      rw [List.cons_append, List.countP_cons, List.countP_append, htail0,
        countP_keyCapMsgs_full]
      simp
    · simp
    · intro m hm
      simp only [List.cons_append, List.tail_cons, List.mem_append] at hm
      rcases hm with hm | hm
      · exact Or.inl (htailcap m hm)
      · exact Or.inr (keyCapMsgs_caption k msgId _ _ m hm)
    · intro m hm
      simp only [List.cons_append, List.tail_cons, List.mem_append] at hm
      rcases hm with hm | hm
      · rw [htailcap m hm]
        exact fun hc => fullCaption_ne_empty k n hc.symm
      · rw [keyCapMsgs_caption k msgId _ _ m hm]
        exact keyCaption_ne_fullCaption k n

/-- C1 witness: the amended caption-placement theorem evaluated on the
two-item batch `[photo, document]`. -/
theorem c1_witness :
    (((sendBatchToChannel Store.empty 1 "K" "N"
        [⟨.photo, "p"⟩, ⟨.document, "d"⟩] (fun x => x) (fun _ => false)).2.1.countP
        (fun m => m.caption == fullCaption "K" "N") = 1)
      ∧ ((sendBatchToChannel Store.empty 1 "K" "N"
          [⟨.photo, "p"⟩, ⟨.document, "d"⟩] (fun x => x) (fun _ => false)).2.1.head?.map
            SentMsg.caption = some (fullCaption "K" "N"))
      ∧ (∀ m ∈ (sendBatchToChannel Store.empty 1 "K" "N"
          [⟨.photo, "p"⟩, ⟨.document, "d"⟩] (fun x => x) (fun _ => false)).2.1.tail,
          m.caption = "" ∨ m.caption = keyCaption "K")
      ∧ (∀ m ∈ (sendBatchToChannel Store.empty 1 "K" "N"
          [⟨.photo, "p"⟩, ⟨.document, "d"⟩] (fun x => x) (fun _ => false)).2.1.tail,
          m.caption ≠ fullCaption "K" "N")) :=
  batch_caption_placement Store.empty 1 "K" "N" (fun x => x)
    [⟨.photo, "p"⟩, ⟨.document, "d"⟩]
    ⟨⟨.photo, "p"⟩, by decide⟩ ⟨⟨.document, "d"⟩, by decide⟩

/-! ## Claim C7 — `channel_ref` is the id of the first physical message -/

/-- C7: for every successfully replicated artifact, `channel_msg_id` is set
to the id of the first physical message produced (`msgId 0`), which is the
head of the grouped post when a groupable item exists and otherwise the
first document message; it is never a later member.  The last conjunct
covers the single-file path, whose one message likewise becomes the
`channel_ref`. -/
theorem channel_ref_first_message (db : Store) (i : Nat) (k n : String)
    (msgId : Nat → Nat) (l : List FileInfo) (hne : l ≠ []) :
    ((sendBatchToChannel db i k n l msgId (fun _ => false)).1
        = db.setChannelMsgId i (msgId 0))
      ∧ ((sendBatchToChannel db i k n l msgId (fun _ => false)).2.1.head?.map
          SentMsg.mid = some (msgId 0))
      ∧ (l.filter isGroupable ≠ [] →
          (sendBatchToChannel db i k n l msgId (fun _ => false)).2.1.head?.map
            SentMsg.fid = (l.filter isGroupable).head?.map FileInfo.fid)
      ∧ (l.filter isGroupable = [] →
          (sendBatchToChannel db i k n l msgId (fun _ => false)).2.1.head?.map
            SentMsg.fid = (l.filter (fun fi => !isGroupable fi)).head?.map FileInfo.fid)
      ∧ (∀ m fi, extractFileInfo m = some fi → db.hasKey k = false →
          (handleSingleFile db m k msgId (fun _ => false)).sent.map SentMsg.mid
              = [msgId 0]
            ∧ ∃ rec, (handleSingleFile db m k msgId (fun _ => false)).db.findByKey k
                = some rec ∧ rec.channel_msg_id = some (msgId 0)) := by
  have hsingle : ∀ m fi, extractFileInfo m = some fi → db.hasKey k = false →
      (handleSingleFile db m k msgId (fun _ => false)).sent.map SentMsg.mid
          = [msgId 0]
        ∧ ∃ rec, (handleSingleFile db m k msgId (fun _ => false)).db.findByKey k
            = some rec ∧ rec.channel_msg_id = some (msgId 0) := by
    intro m fi hext hfr
    have hins : ∀ ft o no, db.insertFile m.from_user ft (.str fi.fid) k o no
        = some (db.nextId,
            ⟨db.rows ++ [⟨db.nextId, m.from_user, ft, .str fi.fid, k, o, no, none⟩],
              db.nextId + 1⟩) := by
      intro ft o no
      unfold Store.insertFile
      rw [hfr]
      rfl
    have hres : handleSingleFile db m k msgId (fun _ => false) =
        (let ftype := match fi.kind with
          | .photo => "photo" | .video => "video" | .document => "document"
        let origName := match fi.kind, m.file_name with
          | .photo, _ => ftype ++ "_" ++ toString m.from_user
          | _, some nm => nm
          | _, none => ftype ++ "_" ++ toString m.from_user
        let note := match captionText m with
          | some c => c
          | none => origName
        let db1 : Store :=
          ⟨db.rows ++ [⟨db.nextId, m.from_user, ftype, .str fi.fid, k, origName, note, none⟩],
            db.nextId + 1⟩
        ⟨db1.setChannelMsgId db.nextId (msgId 0),
          [⟨msgId 0, fi.fid, fullCaption k note⟩],
          some ("✅ 文件已存储!\n\n🔑 密钥: <code>" ++ k ++ "</code>\n📝 备注: "
            ++ note ++ "\n\n您可以使用 /list 查看您的文件或 /update 修改备注"),
          .success⟩) := by
      unfold handleSingleFile
      rw [hext]
      simp only [hins, Bool.false_eq_true, if_false]
    have hall : ∀ r ∈ db.rows, (r.key == k) = false := by
      unfold Store.hasKey at hfr
      rw [List.any_eq_false] at hfr
      intro r hr
      exact Bool.eq_false_iff.mpr (hfr r hr)
    have h2 : ∀ ft origName note, ∃ rec,
        (Store.setChannelMsgId
            ⟨db.rows ++ [⟨db.nextId, m.from_user, ft, .str fi.fid, k, origName, note, none⟩],
              db.nextId + 1⟩ db.nextId (msgId 0)).findByKey k
          = some rec ∧ rec.channel_msg_id = some (msgId 0) := by
      intro ft origName note
      rw [findByKey_setChannelMsgId,
        findByKey_rows_append db.rows _ _ k hall (by simp)]
      refine ⟨_, rfl, ?_⟩
      simp
    rw [hres]
    exact ⟨rfl, h2 _ _ _⟩
  by_cases hfil0 : l.filter isGroupable = []
  · have hself := filter_not_groupable_eq_self l hfil0
    cases hl : l with
    | nil => exact absurd hl hne
    | cons d rest =>
      subst hl
      have hd : List.filter (fun fi => !isGroupable fi) (d :: rest) = d :: rest := hself
      rw [sendBatch_noFail_noMedia db i k n msgId (d :: rest) d rest hfil0 hd]
      refine ⟨rfl, by simp, fun h => absurd hfil0 h, fun _ => ?_, hsingle⟩
      rw [hd]
      simp
  · cases hfil : l.filter isGroupable with
    | nil => exact absurd hfil hfil0
    | cons x xs =>
      rw [sendBatch_noFail_media db i k n msgId l x xs hfil]
      have henum : ((x :: xs).enum.map fun p =>
          (⟨msgId p.1, p.2.fid, if p.1 == 0 then fullCaption k n else ""⟩ : SentMsg))
          = (⟨msgId 0, x.fid, fullCaption k n⟩ : SentMsg) ::
              (xs.enumFrom 1).map (fun p =>
                (⟨msgId p.1, p.2.fid, if p.1 == 0 then fullCaption k n else ""⟩ : SentMsg)) := by
        rw [List.enum_cons]
        simp
      rw [henum]
      exact ⟨rfl, by simp, fun _ => by simp,
        fun h => absurd h (List.cons_ne_nil x xs), hsingle⟩

/-- C7 witness: the theorem evaluated on the batch `[photo, document]` and,
for the single-file conjunct, on a lone photo message. -/
theorem c7_witness :
    ((sendBatchToChannel Store.empty 1 "K" "N"
        [⟨.photo, "p"⟩, ⟨.document, "d"⟩] (fun x => x) (fun _ => false)).1
        = Store.empty.setChannelMsgId 1 0)
      ∧ ((sendBatchToChannel Store.empty 1 "K" "N"
          [⟨.photo, "p"⟩, ⟨.document, "d"⟩] (fun x => x) (fun _ => false)).2.1.head?.map
            SentMsg.mid = some 0)
      ∧ (([⟨.photo, "p"⟩, ⟨.document, "d"⟩] : List FileInfo).filter isGroupable ≠ [] →
          (sendBatchToChannel Store.empty 1 "K" "N"
            [⟨.photo, "p"⟩, ⟨.document, "d"⟩] (fun x => x) (fun _ => false)).2.1.head?.map
              SentMsg.fid
            = (([⟨.photo, "p"⟩, ⟨.document, "d"⟩] : List FileInfo).filter
                isGroupable).head?.map FileInfo.fid)
      ∧ (([⟨.photo, "p"⟩, ⟨.document, "d"⟩] : List FileInfo).filter isGroupable = [] →
          (sendBatchToChannel Store.empty 1 "K" "N"
            [⟨.photo, "p"⟩, ⟨.document, "d"⟩] (fun x => x) (fun _ => false)).2.1.head?.map
              SentMsg.fid
            = (([⟨.photo, "p"⟩, ⟨.document, "d"⟩] : List FileInfo).filter
                (fun fi => !isGroupable fi)).head?.map FileInfo.fid)
      ∧ (∀ m fi, extractFileInfo m = some fi → Store.empty.hasKey "K" = false →
          (handleSingleFile Store.empty m "K" (fun x => x) (fun _ => false)).sent.map
              SentMsg.mid = [0]
            ∧ ∃ rec, (handleSingleFile Store.empty m "K" (fun x => x)
                  (fun _ => false)).db.findByKey "K"
                = some rec ∧ rec.channel_msg_id = some 0) :=
  channel_ref_first_message Store.empty 1 "K" "N" (fun x => x)
    [⟨.photo, "p"⟩, ⟨.document, "d"⟩] (by decide)

/-! ## Claim C2 — persistence survives replication failure -/

/-- C2 counterexample: the claim says that whenever replication fails (any
send raises) the `channel_ref` remains unset.  On the batch
`[photo, document]` with the grouped post succeeding and the document send
raising, the run ends in the degraded `channelFailed` state yet
`channel_msg_id` has already been set to the grouped head's id 0. -/
theorem c2_counterexample :
    ((processFileBatch Store.empty [msgPhoto, msgDoc] 7 "K"
        (fun x => x) (fun op => op == 1)).tag = BatchTag.channelFailed)
      ∧ ((processFileBatch Store.empty [msgPhoto, msgDoc] 7 "K"
          (fun x => x) (fun op => op == 1)).db.findByKey "K").map
            FileRecord.channel_msg_id = some (some 0) := by decide

/-- C2 (amended): if persistence succeeds and replication then fails
(`channelFailed`), the artifact stays stored and retrievable by its key with
its payload and note intact, the owner gets the degraded-success notice
(not an error) and nothing is rolled back; `channel_msg_id` is still unset
whenever the failure strikes the very first send operation, but if an
earlier send already recorded the grouped head it stays recorded. -/
theorem store_survives_replication_failure (db : Store) (msgs : List TgMessage)
    (uid : Nat) (k : String) (msgId : Nat → Nat) (failOp : Nat → Bool)
    (hlen : 2 ≤ msgs.length)
    (hfresh : db.hasKey k = false)
    (htag : (processFileBatch db msgs uid k msgId failOp).tag = .channelFailed) :
    ∃ rec, (processFileBatch db msgs uid k msgId failOp).db.findByKey k = some rec
      ∧ rec.user_id = uid
      ∧ rec.file_type = "batch"
      ∧ rec.file_id = .batchData (msgs.filterMap extractFileInfo)
      ∧ rec.custom_note = computeGroupNote msgs
      ∧ (processFileBatch db msgs uid k msgId failOp).reply
          = some (degradedBatchReply k (computeGroupNote msgs))
      ∧ (failOp 0 = true → rec.channel_msg_id = none) := by
  have hall : ∀ r ∈ db.rows, (r.key == k) = false := by
    unfold Store.hasKey at hfresh
    rw [List.any_eq_false] at hfresh
    intro r hr
    exact Bool.eq_false_iff.mpr (hfresh r hr)
  have heq := processFileBatch_batch db msgs uid k msgId failOp hlen
  cases hfl : msgs.filterMap extractFileInfo with
  | nil =>
    rw [hfl] at heq
    rw [heq] at htag
    simp at htag
  | cons f0 fs =>
    rw [hfl] at heq
    have hins : db.insertFile uid "batch" (.batchData (f0 :: fs)) k "文件合集"
        (computeGroupNote msgs)
        = some (db.nextId,
            ⟨db.rows ++ [⟨db.nextId, uid, "batch", .batchData (f0 :: fs), k, "文件合集",
              computeGroupNote msgs, none⟩], db.nextId + 1⟩) := by
      unfold Store.insertFile
      rw [hfresh]
      rfl
    rw [hins] at heq
    simp only [List.isEmpty_cons, Bool.false_eq_true, if_false] at heq
    by_cases hf0 : failOp 0 = true
    · have hsb := sendBatch_failFirst
        (⟨db.rows ++ [⟨db.nextId, uid, "batch", .batchData (f0 :: fs), k, "文件合集",
          computeGroupNote msgs, none⟩], db.nextId + 1⟩ : Store)
        db.nextId k (computeGroupNote msgs) msgId failOp
        (f0 :: fs) (List.cons_ne_nil f0 fs) hf0
      rw [hsb] at heq
      simp only [if_true] at heq
      rw [heq]
      exact ⟨_, findByKey_rows_append db.rows _ _ k hall (by simp), rfl, rfl, rfl, rfl,
        rfl, fun _ => rfl⟩
    · cases hr : (sendBatchToChannel
          (⟨db.rows ++ [⟨db.nextId, uid, "batch", .batchData (f0 :: fs), k, "文件合集",
            computeGroupNote msgs, none⟩], db.nextId + 1⟩ : Store)
          db.nextId k (computeGroupNote msgs) (f0 :: fs) msgId failOp).2.2 with
      | false =>
        rw [hr] at heq
        simp only [Bool.false_eq_true, if_false] at heq
        rw [heq] at htag
        simp at htag
      | true =>
        rw [hr] at heq
        simp only [if_true] at heq
        rw [heq]
        rcases sendBatch_fst_cases
            (⟨db.rows ++ [⟨db.nextId, uid, "batch", .batchData (f0 :: fs), k, "文件合集",
              computeGroupNote msgs, none⟩], db.nextId + 1⟩ : Store)
            db.nextId k (computeGroupNote msgs) msgId failOp (f0 :: fs) with hc | hc
        · rw [hc]
          exact ⟨_, findByKey_rows_append db.rows _ _ k hall (by simp), rfl, rfl, rfl,
            rfl, rfl, fun hx => absurd hx hf0⟩
        · rw [hc, findByKey_setChannelMsgId,
            findByKey_rows_append db.rows _ _ k hall (by simp)]
          simp only [Option.map_some']
          exact ⟨_, rfl, by simp, by simp, by simp, by simp, trivial, fun hx => absurd hx hf0⟩

/-- C2 witness: the amended theorem evaluated on the `[photo, document]`
batch whose very first send operation raises. -/
theorem c2_witness :
    ∃ rec, (processFileBatch Store.empty [msgPhoto, msgDoc] 7 "K"
        (fun x => x) (fun _ => true)).db.findByKey "K" = some rec
      ∧ rec.user_id = 7
      ∧ rec.file_type = "batch"
      ∧ rec.file_id = .batchData ([msgPhoto, msgDoc].filterMap extractFileInfo)
      ∧ rec.custom_note = computeGroupNote [msgPhoto, msgDoc]
      ∧ (processFileBatch Store.empty [msgPhoto, msgDoc] 7 "K"
          (fun x => x) (fun _ => true)).reply
          = some (degradedBatchReply "K" (computeGroupNote [msgPhoto, msgDoc]))
      ∧ ((fun _ : Nat => true) 0 = true → rec.channel_msg_id = none) :=
  store_survives_replication_failure Store.empty [msgPhoto, msgDoc] 7 "K"
    (fun x => x) (fun _ => true) (by decide) (by decide) (by decide)

/-! ## Claims C4 and C5 — payload counting and note selection -/

theorem hasKey_false_all (db : Store) (k : String) (hfresh : db.hasKey k = false) :
    ∀ r ∈ db.rows, (r.key == k) = false := by
  unfold Store.hasKey at hfresh
  rw [List.any_eq_false] at hfresh
  intro r hr
  exact Bool.eq_false_iff.mpr (hfresh r hr)

/-- Extraction succeeds exactly on events carrying extractable
media (a photo, a video, or a document). -/
theorem extract_isSome (m : TgMessage) :
    (extractFileInfo m).isSome = hasExtractableMedia m := by
  unfold extractFileInfo hasExtractableMedia
  cases hp : m.photo with
  | nil => cases m.video <;> cases m.document <;> simp
  | cons a as =>
    have hs : (a :: as).getLast?.isSome := by simp
    obtain ⟨x, hx⟩ := Option.isSome_iff_exists.mp hs
    rw [hx]
    simp

/-- The record stored by the multi-file path: `batch` kind, the extracted
pairs as payload, the computed group note. -/
theorem processFileBatch_stored (db : Store) (msgs : List TgMessage) (uid : Nat)
    (k : String) (msgId : Nat → Nat) (failOp : Nat → Bool)
    (hlen : 2 ≤ msgs.length) (hfresh : db.hasKey k = false)
    (f0 : FileInfo) (fs : List FileInfo)
    (hfl : msgs.filterMap extractFileInfo = f0 :: fs) :
    ∃ rec, (processFileBatch db msgs uid k msgId failOp).db.findByKey k = some rec
      ∧ rec.user_id = uid ∧ rec.file_type = "batch"
      ∧ rec.file_id = .batchData (f0 :: fs)
      ∧ rec.custom_note = computeGroupNote msgs := by
  have hall := hasKey_false_all db k hfresh
  have heq := processFileBatch_batch db msgs uid k msgId failOp hlen
  rw [hfl] at heq
  have hins : db.insertFile uid "batch" (.batchData (f0 :: fs)) k "文件合集"
      (computeGroupNote msgs)
      = some (db.nextId,
          ⟨db.rows ++ [⟨db.nextId, uid, "batch", .batchData (f0 :: fs), k, "文件合集",
            computeGroupNote msgs, none⟩], db.nextId + 1⟩) := by
    unfold Store.insertFile
    rw [hfresh]
    rfl
  rw [hins] at heq
  simp only [List.isEmpty_cons, Bool.false_eq_true, if_false] at heq
  have hdb : (processFileBatch db msgs uid k msgId failOp).db
      = (sendBatchToChannel
          (⟨db.rows ++ [⟨db.nextId, uid, "batch", .batchData (f0 :: fs), k, "文件合集",
            computeGroupNote msgs, none⟩], db.nextId + 1⟩ : Store)
          db.nextId k (computeGroupNote msgs) (f0 :: fs) msgId failOp).1 := by
    rw [heq]
    cases hb : (sendBatchToChannel
        (⟨db.rows ++ [⟨db.nextId, uid, "batch", .batchData (f0 :: fs), k, "文件合集",
          computeGroupNote msgs, none⟩], db.nextId + 1⟩ : Store)
        db.nextId k (computeGroupNote msgs) (f0 :: fs) msgId failOp).2.2 <;> simp [hb]
  rw [hdb]
  rcases sendBatch_fst_cases
      (⟨db.rows ++ [⟨db.nextId, uid, "batch", .batchData (f0 :: fs), k, "文件合集",
        computeGroupNote msgs, none⟩], db.nextId + 1⟩ : Store)
      db.nextId k (computeGroupNote msgs) msgId failOp (f0 :: fs) with hc | hc
  · rw [hc]
    exact ⟨_, findByKey_rows_append db.rows _ _ k hall (by simp), rfl, rfl, rfl, rfl⟩
  · rw [hc, findByKey_setChannelMsgId,
      findByKey_rows_append db.rows _ _ k hall (by simp)]
    simp only [Option.map_some']
    exact ⟨_, rfl, by simp, by simp, by simp, by simp⟩

/-- C4: for a detached batch, the stored payload is exactly the list of
extracted pairs, whose length is the number of events carrying extractable
media; events without extractable media are dropped without aborting the
batch, and if no event carries extractable media nothing is stored and
nothing is sent. -/
theorem batch_payload_count (db : Store) (msgs : List TgMessage) (uid : Nat)
    (k : String) (msgId : Nat → Nat) (failOp : Nat → Bool)
    (hlen : 2 ≤ msgs.length) (hfresh : db.hasKey k = false) :
    (msgs.countP hasExtractableMedia = 0 →
        processFileBatch db msgs uid k msgId failOp
          = ⟨db, [], none, .noProcessable⟩)
      ∧ (0 < msgs.countP hasExtractableMedia →
          ∃ rec, (processFileBatch db msgs uid k msgId failOp).db.findByKey k = some rec
            ∧ rec.file_id = .batchData (msgs.filterMap extractFileInfo)
            ∧ (msgs.filterMap extractFileInfo).length
                = msgs.countP hasExtractableMedia) := by
  have hcnt : (msgs.filterMap extractFileInfo).length
      = msgs.countP hasExtractableMedia := by
    rw [List.length_filterMap_eq_countP]
    exact List.countP_congr (fun m _ => by rw [extract_isSome m])
  constructor
  · intro h0
    have hnil : msgs.filterMap extractFileInfo = [] :=
      List.length_eq_zero.mp (by rw [hcnt]; exact h0)
    rw [processFileBatch_batch db msgs uid k msgId failOp hlen, hnil]
    simp
  · intro hpos
    cases hfl : msgs.filterMap extractFileInfo with
    | nil =>
      rw [hfl] at hcnt
      simp at hcnt
      omega
    | cons f0 fs =>
      obtain ⟨rec, hfind, -, -, hfid, -⟩ :=
        processFileBatch_stored db msgs uid k msgId failOp hlen hfresh f0 fs hfl
      refine ⟨rec, hfind, hfid, ?_⟩
      rw [← hfl]
      exact hcnt

/-- C4 witness: the count theorem on the batch `[photo, no-media, document]`
where only two of the three events carry extractable media. -/
theorem c4_witness :
    (([msgPhoto, msgBare, msgDoc] : List TgMessage).countP hasExtractableMedia = 0 →
        processFileBatch Store.empty [msgPhoto, msgBare, msgDoc] 7 "K"
          (fun x => x) (fun _ => false)
          = ⟨Store.empty, [], none, .noProcessable⟩)
      ∧ (0 < ([msgPhoto, msgBare, msgDoc] : List TgMessage).countP hasExtractableMedia →
          ∃ rec, (processFileBatch Store.empty [msgPhoto, msgBare, msgDoc] 7 "K"
              (fun x => x) (fun _ => false)).db.findByKey "K" = some rec
            ∧ rec.file_id
                = .batchData ([msgPhoto, msgBare, msgDoc].filterMap extractFileInfo)
            ∧ ([msgPhoto, msgBare, msgDoc].filterMap extractFileInfo).length
                = ([msgPhoto, msgBare, msgDoc] : List TgMessage).countP
                    hasExtractableMedia) :=
  batch_payload_count Store.empty [msgPhoto, msgBare, msgDoc] 7 "K"
    (fun x => x) (fun _ => false) (by decide) (by decide)

/-- C5: for a batch built from buffered events (which all passed the
photo/video/document message filter registered in `main`), the stored note
is the caption of the first event carrying a non-empty caption, else the
synthesized default whose count is the number of extracted pairs. -/
theorem batch_note_rule (db : Store) (msgs : List TgMessage) (uid : Nat)
    (k : String) (msgId : Nat → Nat) (failOp : Nat → Bool)
    (hlen : 2 ≤ msgs.length) (hfresh : db.hasKey k = false)
    (hfilter : ∀ m ∈ msgs, passesMediaFilter m = true) :
    ∃ rec, (processFileBatch db msgs uid k msgId failOp).db.findByKey k = some rec
      ∧ rec.custom_note = (match msgs.findSome? captionText with
          | some c => c
          | none => defaultGroupNote (msgs.filterMap extractFileInfo).length) := by
  have hlencnt : (msgs.filterMap extractFileInfo).length = msgs.length := by
    rw [List.length_filterMap_eq_countP, List.countP_eq_length]
    intro m hm
    rw [extract_isSome m]
    exact hfilter m hm
  cases hfl : msgs.filterMap extractFileInfo with
  | nil =>
    rw [hfl] at hlencnt
    simp at hlencnt
    omega
  | cons f0 fs =>
    obtain ⟨rec, hfind, -, -, -, hnote⟩ :=
      processFileBatch_stored db msgs uid k msgId failOp hlen hfresh f0 fs hfl
    refine ⟨rec, hfind, ?_⟩
    rw [hnote]
    unfold computeGroupNote
    cases hfs : msgs.findSome? captionText with
    | some c => rfl
    | none => rw [← hfl, hlencnt]

/-- C5 witness: the note rule on a batch whose second event carries the
caption `"final"`; the stored note is `"final"`. -/
theorem c5_witness :
    ∃ rec, (processFileBatch Store.empty [msgPhoto, msgPhotoCap] 7 "K"
        (fun x => x) (fun _ => false)).db.findByKey "K" = some rec
      ∧ rec.custom_note
          = (match ([msgPhoto, msgPhotoCap] : List TgMessage).findSome? captionText with
            | some c => c
            | none => defaultGroupNote
                (([msgPhoto, msgPhotoCap] : List TgMessage).filterMap
                  extractFileInfo).length) :=
  batch_note_rule Store.empty [msgPhoto, msgPhotoCap] 7 "K"
    (fun x => x) (fun _ => false) (by decide) (by decide) (by decide)

/-! ## Claim C3 — trailing debounce: re-arming and commit boundaries -/

theorem submit_deadline (s : DebounceState) (t : Nat) (m : TgMessage) :
    (submitEvent s t m).deadline = some (t + quietPeriod) := rfl

theorem submit_fire (s : DebounceState) (t : Nat) (m : TgMessage) (d : Nat)
    (hd : s.deadline = some d) (hlt : d < t) :
    (submitEvent s t m).commits = s.commits ++ [s.buffer] := by
  unfold submitEvent fireJob
  rw [hd]
  simp [hlt]

theorem finalize_some (s : DebounceState) (d : Nat) (hd : s.deadline = some d) :
    (finalizeDebounce s).commits = s.commits ++ [s.buffer] := by
  unfold finalizeDebounce fireJob
  rw [hd]

theorem submit_commits_mono (s : DebounceState) (t : Nat) (m : TgMessage) :
    ∃ tl, (submitEvent s t m).commits = s.commits ++ tl := by
  unfold submitEvent fireJob
  cases hd : s.deadline with
  | none => exact ⟨[], by simp⟩
  | some d =>
    by_cases hlt : d < t
    · exact ⟨[s.buffer], by simp [hlt]⟩
    · exact ⟨[], by simp [hlt]⟩

theorem foldl_commits_mono :
    ∀ (evs : List (Nat × TgMessage)) (s : DebounceState),
      ∃ tl, (evs.foldl (fun s e => submitEvent s e.1 e.2) s).commits
        = s.commits ++ tl := by
  intro evs
  induction evs with
  | nil => intro s; exact ⟨[], by simp⟩
  | cons e rest ih =>
    intro s
    obtain ⟨tl1, h1⟩ := ih (submitEvent s e.1 e.2)
    obtain ⟨tl0, h0⟩ := submit_commits_mono s e.1 e.2
    exact ⟨tl0 ++ tl1, by simp [List.foldl_cons, h1, h0, List.append_assoc]⟩

theorem foldl_deadline_isSome :
    ∀ (evs : List (Nat × TgMessage)) (s : DebounceState), evs ≠ [] →
      ((evs.foldl (fun s e => submitEvent s e.1 e.2) s).deadline).isSome = true := by
  intro evs
  induction evs with
  | nil => intro s h; exact absurd rfl h
  | cons e rest ih =>
    intro s _
    cases hrest : rest with
    | nil => simp [List.foldl_cons, submit_deadline]
    | cons e2 rest2 =>
      rw [List.foldl_cons]
      rw [hrest] at ih
      exact ih (submitEvent s e.1 e.2) (List.cons_ne_nil e2 rest2)

/-- Under gaps shorter than the quiet period, the fold never fires: the
buffer accumulates every message and no commit happens. -/
theorem foldl_submit_gapsOk :
    ∀ (evs : List (Nat × TgMessage)) (t : Nat) (buf : List TgMessage)
      (com : List (List TgMessage)), gapsOk t evs →
      evs.foldl (fun s e => submitEvent s e.1 e.2)
          ⟨buf, some (t + quietPeriod), com⟩
        = ⟨buf ++ evs.map Prod.snd, some (lastTime t evs + quietPeriod), com⟩ := by
  intro evs
  induction evs with
  | nil => intro t buf com _; simp [lastTime]
  | cons e rest ih =>
    intro t buf com hg
    obtain ⟨h1, h2, h3⟩ := hg
    rw [List.foldl_cons]
    have hstep : submitEvent ⟨buf, some (t + quietPeriod), com⟩ e.1 e.2
        = ⟨buf ++ [e.2], some (e.1 + quietPeriod), com⟩ := by
      unfold submitEvent
      simp [show ¬(t + quietPeriod < e.1) from by omega]
    rw [hstep, ih e.1 (buf ++ [e.2]) com h3]
    simp [lastTime, List.append_assoc]

/-- C3: submitting a sequence of events whose consecutive gaps are all
shorter than the quiet period produces exactly one commit, carrying every
buffered message (each submission re-arms the timer instead of firing it);
and a gap longer than the quiet period always produces a commit boundary,
so the run commits at least twice. -/
theorem debounce_commit_boundaries :
    (∀ (t : Nat) (m : TgMessage) (rest : List (Nat × TgMessage)), gapsOk t rest →
        (runDebounce ((t, m) :: rest)).commits = [m :: rest.map Prod.snd])
      ∧ (∀ (xs : List (Nat × TgMessage)) (ta : Nat) (ma : TgMessage) (tb : Nat)
          (mb : TgMessage) (ys : List (Nat × TgMessage)), ta + quietPeriod < tb →
          2 ≤ (runDebounce (xs ++ (ta, ma) :: (tb, mb) :: ys)).commits.length) := by
  constructor
  · intro t m rest hg
    unfold runDebounce
    rw [List.foldl_cons]
    have hfirst : submitEvent DebounceState.init t m
        = ⟨[m], some (t + quietPeriod), []⟩ := rfl
    rw [hfirst, foldl_submit_gapsOk rest t [m] [] hg]
    unfold finalizeDebounce fireJob
    simp
  · intro xs ta ma tb mb ys hgap
    unfold runDebounce
    rw [show xs ++ (ta, ma) :: (tb, mb) :: ys
        = (xs ++ [(ta, ma)]) ++ ((tb, mb) :: ys) from by simp,
      List.foldl_append, List.foldl_cons]
    have hs1 : ((xs ++ [(ta, ma)]).foldl (fun s e => submitEvent s e.1 e.2)
        DebounceState.init).deadline = some (ta + quietPeriod) := by
      rw [List.foldl_append]
      exact submit_deadline _ ta ma
    have h2 : (submitEvent ((xs ++ [(ta, ma)]).foldl (fun s e => submitEvent s e.1 e.2)
          DebounceState.init) tb mb).commits
        = ((xs ++ [(ta, ma)]).foldl (fun s e => submitEvent s e.1 e.2)
            DebounceState.init).commits
          ++ [((xs ++ [(ta, ma)]).foldl (fun s e => submitEvent s e.1 e.2)
            DebounceState.init).buffer] :=
      submit_fire _ tb mb (ta + quietPeriod) hs1 hgap
    obtain ⟨tl, htl⟩ := foldl_commits_mono ys
      (submitEvent ((xs ++ [(ta, ma)]).foldl (fun s e => submitEvent s e.1 e.2)
        DebounceState.init) tb mb)
    have hdl3 : ((ys.foldl (fun s e => submitEvent s e.1 e.2)
        (submitEvent ((xs ++ [(ta, ma)]).foldl (fun s e => submitEvent s e.1 e.2)
          DebounceState.init) tb mb)).deadline).isSome = true := by
      cases hys : ys with
      | nil => simp [submit_deadline]
      | cons y ys2 =>
        exact foldl_deadline_isSome (y :: ys2) _ (List.cons_ne_nil y ys2)
    obtain ⟨d, hd⟩ := Option.isSome_iff_exists.mp hdl3
    have hfin : (finalizeDebounce (ys.foldl (fun s e => submitEvent s e.1 e.2)
          (submitEvent ((xs ++ [(ta, ma)]).foldl (fun s e => submitEvent s e.1 e.2)
            DebounceState.init) tb mb))).commits
        = (ys.foldl (fun s e => submitEvent s e.1 e.2)
            (submitEvent ((xs ++ [(ta, ma)]).foldl (fun s e => submitEvent s e.1 e.2)
              DebounceState.init) tb mb)).commits
          ++ [(ys.foldl (fun s e => submitEvent s e.1 e.2)
            (submitEvent ((xs ++ [(ta, ma)]).foldl (fun s e => submitEvent s e.1 e.2)
              DebounceState.init) tb mb)).buffer] := by
      exact finalize_some _ d hd
    rw [hfin, htl, h2]
    simp [List.length_append]
    omega

/-- C3 witness: two submissions 1 time unit apart commit once, carrying both
messages; two submissions 10 time units apart commit twice. -/
theorem c3_witness :
    (runDebounce [(0, msgPhoto), (1, msgDoc)]).commits
        = [msgPhoto :: ([(1, msgDoc)] : List (Nat × TgMessage)).map Prod.snd]
      ∧ 2 ≤ (runDebounce (([] : List (Nat × TgMessage))
          ++ (0, msgPhoto) :: (10, msgDoc) :: [])).commits.length :=
  ⟨debounce_commit_boundaries.1 0 msgPhoto [(1, msgDoc)]
      ⟨by decide, by decide, trivial⟩,
    debounce_commit_boundaries.2 [] 0 msgPhoto 10 msgDoc [] (by decide)⟩

/-! ## Claim C6 — key collisions: rejection, but no retry -/

/-- C6 counterexample: the claim says the generator retries on a collision
so that artifact creation never fails because of one.  With key
`"AAAAAAAA"` already stored, a batch whose freshly generated key is
`"AAAAAAAA"` ends in `saveFailed` with nothing stored — creation fails and
nothing retries. -/
theorem c6_counterexample :
    storeWithA.hasKey "AAAAAAAA" = true
      ∧ processFileBatch storeWithA [msgPhoto, msgDoc] 7 "AAAAAAAA"
          (fun x => x) (fun _ => false)
        = ⟨storeWithA, [], some "❌ 文件合集保存失败，请重试。", .saveFailed⟩ := by
  decide

/-- C6 (amended): the store's UNIQUE constraint rejects a duplicate insert,
so no two stored records ever share a key (inserting preserves
key-distinctness); but the generator does not retry: when the freshly
generated key collides, the batch save fails, the store is left unchanged
and the owner is told the save failed and asked to resend. -/
theorem key_uniqueness_no_retry (db : Store) (uid : Nat) (ft : String)
    (fd : FileData) (k o no : String) :
    (db.hasKey k = true → db.insertFile uid ft fd k o no = none)
      ∧ (∀ i db', db.insertFile uid ft fd k o no = some (i, db') →
          (db.rows.map FileRecord.key).Nodup → (db'.rows.map FileRecord.key).Nodup)
      ∧ (∀ msgs msgId failOp, 2 ≤ msgs.length → db.hasKey k = true →
          msgs.filterMap extractFileInfo ≠ [] →
          processFileBatch db msgs uid k msgId failOp
            = ⟨db, [], some "❌ 文件合集保存失败，请重试。", .saveFailed⟩) := by
  refine ⟨?_, ?_, ?_⟩
  · intro h
    simp [Store.insertFile, h]
  · intro i db' hins hnodup
    obtain ⟨-, hdb, hfresh⟩ := insertFile_eq_some db uid ft fd k o no i db' hins
    subst hdb
    have hnotmem : k ∉ db.rows.map FileRecord.key := by
      intro hmem
      obtain ⟨r, hr, hrk⟩ := List.mem_map.mp hmem
      have := hasKey_false_all db k hfresh r hr
      rw [hrk] at this
      simp at this
    simp only [List.map_append, List.map_cons, List.map_nil]
    rw [List.nodup_append]
    refine ⟨hnodup, by simp, ?_⟩
    intro x hx hxk
    simp only [List.mem_singleton] at hxk
    subst hxk
    exact hnotmem hx
  · intro msgs msgId failOp hlen hkey hne
    have heq := processFileBatch_batch db msgs uid k msgId failOp hlen
    cases hfl : msgs.filterMap extractFileInfo with
    | nil => exact absurd hfl hne
    | cons f0 fs =>
      rw [hfl] at heq
      have hins : db.insertFile uid "batch" (.batchData (f0 :: fs)) k "文件合集"
          (computeGroupNote msgs) = none := by
        simp [Store.insertFile, hkey]
      rw [hins] at heq
      simp only [List.isEmpty_cons, Bool.false_eq_true, if_false] at heq
      exact heq

/-- C6 witness: the three parts evaluated on the store already holding
`"AAAAAAAA"`: a colliding insert is rejected; a fresh insert keeps the keys
distinct; a colliding batch run reports a failed save and changes nothing. -/
theorem c6_witness :
    (storeWithA.insertFile 7 "batch" (.batchData [⟨.photo, "p"⟩]) "AAAAAAAA"
        "文件合集" "n" = none)
      ∧ (((⟨storeWithA.rows ++ [⟨2, 7, "batch", .batchData [⟨.photo, "p"⟩],
          "BBBBBBBB", "文件合集", "n", none⟩], 3⟩ : Store).rows.map
            FileRecord.key).Nodup)
      ∧ processFileBatch storeWithA [msgPhoto, msgDoc] 7 "AAAAAAAA"
          (fun x => x) (fun _ => false)
        = ⟨storeWithA, [], some "❌ 文件合集保存失败，请重试。", .saveFailed⟩ :=
  ⟨(key_uniqueness_no_retry storeWithA 7 "batch" (.batchData [⟨.photo, "p"⟩])
      "AAAAAAAA" "文件合集" "n").1 (by decide),
    (key_uniqueness_no_retry storeWithA 7 "batch" (.batchData [⟨.photo, "p"⟩])
      "BBBBBBBB" "文件合集" "n").2.1 2 _ (by decide) (by decide),
    (key_uniqueness_no_retry storeWithA 7 "batch" (.batchData [⟨.photo, "p"⟩])
      "AAAAAAAA" "文件合集" "n").2.2 [msgPhoto, msgDoc] (fun x => x) (fun _ => false)
      (by decide) (by decide) (by decide)⟩

/-! ## Claims C8, C9, C10 — command handlers -/

theorem findByKeyUser_none_of_hasKey_false (db : Store) (k : String) (u : Nat)
    (h : db.hasKey k = false) : db.findByKeyUser k u = none := by
  unfold Store.findByKeyUser
  rw [List.find?_eq_none]
  intro r hr hc
  rw [Bool.and_eq_true] at hc
  have := hasKey_false_all db k h r hr
  rw [hc.1] at this
  simp at this

theorem findByKeyUser_map_note (db : Store) (i : Nat) (nn : String)
    (k : String) (u : Nat) :
    Store.findByKeyUser
        ⟨db.rows.map (fun r => if r.rid == i then { r with custom_note := nn } else r),
          db.nextId⟩ k u
      = (db.findByKeyUser k u).map
          (fun r => if r.rid == i then { r with custom_note := nn } else r) := by
  unfold Store.findByKeyUser
  rw [List.find?_map]
  have hp : ((fun r : FileRecord => r.key == k && r.user_id == u) ∘
      (fun r : FileRecord => if r.rid == i then { r with custom_note := nn } else r))
      = (fun r : FileRecord => r.key == k && r.user_id == u) := by
    funext r
    by_cases h : r.rid = i <;> simp [h]
  rw [hp]

/-- C8 counterexample: the claim says `/update` and `/delete` reject a
malformed key before any store lookup; in fact both handlers query the
store with the raw argument — the lookup trace is non-empty for the
1-character key `"x"`. -/
theorem c8_counterexample :
    validKeyFormat "x" = false
      ∧ (updateNote storeWithA 1 ["x", "n"] true).trace
          = [.lookupKeyUser "x" 1]
      ∧ (deleteKey storeWithA 1 ["x"] true).trace
          = [.lookupKeyUser "x" 1] := by decide

/-- C8 (amended): only the retrieve-by-key text command validates the
8-character `[A-Za-z0-9]` format before any store lookup; `/update` and
`/delete` pass the raw argument straight to the store lookup, but since
every stored key is well-formed the lookup finds nothing and both fail
with the not-found-or-not-owner reply, leaving the store unchanged. -/
theorem key_format_validation (db : Store) (sbad sgood : String) (u : Nat)
    (a : String) (rest : List String) (editOk delOk : Bool)
    (hbad : validKeyFormat sbad = false)
    (hgood : validKeyFormat sgood = true)
    (hvalid : ∀ r ∈ db.rows, validKeyFormat r.key = true) :
    (handleKey db sbad
        = ⟨db, "⚠️ 密钥格式错误！请输入8位字母数字组合", [], [], [], []⟩)
      ∧ ((handleKey db sgood).trace = [.lookupKey sgood])
      ∧ (updateNote db u (sbad :: a :: rest) editOk
          = ⟨db, "⚠️ 更新失败！文件不存在或您不是该文件的所有者",
              [.lookupKeyUser sbad u], [], [], []⟩)
      ∧ (deleteKey db u [sbad] delOk
          = ⟨db, "⚠️ 删除失败！密钥不存在或您不是该文件的所有者。",
              [.lookupKeyUser sbad u], [], [], []⟩) := by
  have hfresh : db.hasKey sbad = false := by
    unfold Store.hasKey
    rw [List.any_eq_false]
    intro r hr hc
    rw [beq_iff_eq] at hc
    have := hvalid r hr
    rw [hc, hbad] at this
    exact Bool.false_ne_true this
  have hnone := findByKeyUser_none_of_hasKey_false db sbad u hfresh
  refine ⟨?_, ?_, ?_, ?_⟩
  · simp [handleKey, hbad]
  · simp only [handleKey, hgood, Bool.not_true, Bool.false_eq_true, if_false]
    cases hf : db.findByKey sgood <;> simp
  · simp [updateNote, hnone]
  · simp [deleteKey, hnone]

/-- C8 witness: the validation theorem on a store whose only key is
`"AAAAAAAA"`, with the malformed key `"x"` and the well-formed key
`"Abc12345"`. -/
theorem c8_witness :
    (handleKey storeWithA "x"
        = ⟨storeWithA, "⚠️ 密钥格式错误！请输入8位字母数字组合", [], [], [], []⟩)
      ∧ ((handleKey storeWithA "Abc12345").trace = [.lookupKey "Abc12345"])
      ∧ (updateNote storeWithA 1 ["x", "n"] true
          = ⟨storeWithA, "⚠️ 更新失败！文件不存在或您不是该文件的所有者",
              [.lookupKeyUser "x" 1], [], [], []⟩)
      ∧ (deleteKey storeWithA 1 ["x"] true
          = ⟨storeWithA, "⚠️ 删除失败！密钥不存在或您不是该文件的所有者。",
              [.lookupKeyUser "x" 1], [], [], []⟩) :=
  key_format_validation storeWithA "x" "Abc12345" 1 "n" [] true true
    (by decide) (by decide) (by decide)

/-- C9: for an existing key owned by someone else, `/update` and `/delete`
fail with exactly the not-found-or-not-owner reply, change no state and
attempt no channel calls — the very same observable outcome a truly
missing key produces. -/
theorem ownership_indistinguishable (db : Store) (k : String) (u : Nat)
    (rec : FileRecord) (a : String) (rest : List String) (editOk delOk : Bool)
    (hfind : db.findByKey k = some rec)
    (howner : rec.user_id ≠ u)
    (hnodup : (db.rows.map FileRecord.key).Nodup) :
    (updateNote db u (k :: a :: rest) editOk
        = ⟨db, "⚠️ 更新失败！文件不存在或您不是该文件的所有者",
            [.lookupKeyUser k u], [], [], []⟩)
      ∧ (deleteKey db u [k] delOk
          = ⟨db, "⚠️ 删除失败！密钥不存在或您不是该文件的所有者。",
              [.lookupKeyUser k u], [], [], []⟩)
      ∧ (∀ db2 : Store, db2.hasKey k = false →
          updateNote db2 u (k :: a :: rest) editOk
              = ⟨db2, "⚠️ 更新失败！文件不存在或您不是该文件的所有者",
                  [.lookupKeyUser k u], [], [], []⟩
            ∧ deleteKey db2 u [k] delOk
              = ⟨db2, "⚠️ 删除失败！密钥不存在或您不是该文件的所有者。",
                  [.lookupKeyUser k u], [], [], []⟩) := by
  have hrec : rec ∈ db.rows := List.mem_of_find?_eq_some hfind
  have hkrec : rec.key = k := by
    have := List.find?_some hfind
    simpa using this
  have hnone : db.findByKeyUser k u = none := by
    unfold Store.findByKeyUser
    rw [List.find?_eq_none]
    intro r hr hc
    rw [Bool.and_eq_true, beq_iff_eq, beq_iff_eq] at hc
    have hre : r = rec :=
      List.inj_on_of_nodup_map hnodup hr hrec (by rw [hc.1, hkrec])
    rw [hre] at hc
    exact howner hc.2
  refine ⟨?_, ?_, ?_⟩
  · simp [updateNote, hnone]
  · simp [deleteKey, hnone]
  · intro db2 h2
    have hnone2 := findByKeyUser_none_of_hasKey_false db2 k u h2
    constructor
    · simp [updateNote, hnone2]
    · simp [deleteKey, hnone2]

/-- C9 witness: the ownership theorem with caller 1 against the record of
key `"AAAAAAAA"` owned by user 9, and the missing-key half evaluated on the
empty store. -/
theorem c9_witness :
    (updateNote storeWithA 1 ["AAAAAAAA", "n"] true
        = ⟨storeWithA, "⚠️ 更新失败！文件不存在或您不是该文件的所有者",
            [.lookupKeyUser "AAAAAAAA" 1], [], [], []⟩)
      ∧ (deleteKey storeWithA 1 ["AAAAAAAA"] true
          = ⟨storeWithA, "⚠️ 删除失败！密钥不存在或您不是该文件的所有者。",
              [.lookupKeyUser "AAAAAAAA" 1], [], [], []⟩)
      ∧ (updateNote Store.empty 1 ["AAAAAAAA", "n"] true
          = ⟨Store.empty, "⚠️ 更新失败！文件不存在或您不是该文件的所有者",
              [.lookupKeyUser "AAAAAAAA" 1], [], [], []⟩)
      ∧ (deleteKey Store.empty 1 ["AAAAAAAA"] true
          = ⟨Store.empty, "⚠️ 删除失败！密钥不存在或您不是该文件的所有者。",
              [.lookupKeyUser "AAAAAAAA" 1], [], [], []⟩) :=
  ⟨(ownership_indistinguishable storeWithA "AAAAAAAA" 1
      ⟨1, 9, "photo", .str "x", "AAAAAAAA", "name", "note", none⟩ "n" [] true true
      (by decide) (by decide) (by decide)).1,
    (ownership_indistinguishable storeWithA "AAAAAAAA" 1
      ⟨1, 9, "photo", .str "x", "AAAAAAAA", "name", "note", none⟩ "n" [] true true
      (by decide) (by decide) (by decide)).2.1,
    (ownership_indistinguishable storeWithA "AAAAAAAA" 1
      ⟨1, 9, "photo", .str "x", "AAAAAAAA", "name", "note", none⟩ "n" [] true true
      (by decide) (by decide) (by decide)).2.2 Store.empty (by decide) |>.1,
    (ownership_indistinguishable storeWithA "AAAAAAAA" 1
      ⟨1, 9, "photo", .str "x", "AAAAAAAA", "name", "note", none⟩ "n" [] true true
      (by decide) (by decide) (by decide)).2.2 Store.empty (by decide) |>.2⟩

/-- C10: a successful rename updates the stored note and reports success;
it attempts a channel caption edit only when the artifact's kind is not
`batch` (and a channel ref is recorded), never for a `batch` artifact; and
the outcome of the attempted edit (success or failure) affects neither the
stored state nor the reply. -/
theorem rename_channel_edit (db : Store) (u : Nat) (k : String) (rec : FileRecord)
    (a : String) (rest : List String) (editOk : Bool)
    (hfind : db.findByKeyUser k u = some rec) :
    ((updateNote db u (k :: a :: rest) editOk).reply
        = "✅ 备注已更新为: " ++ String.intercalate " " (a :: rest))
      ∧ (rec.file_type = "batch" →
          (updateNote db u (k :: a :: rest) editOk).edits = [])
      ∧ (∀ m : Nat, rec.file_type ≠ "batch" → rec.channel_msg_id = some m → m ≠ 0 →
          (updateNote db u (k :: a :: rest) editOk).edits
            = [(m, fullCaption k (String.intercalate " " (a :: rest)))])
      ∧ ((updateNote db u (k :: a :: rest) editOk).db
            = (updateNote db u (k :: a :: rest) (!editOk)).db
          ∧ (updateNote db u (k :: a :: rest) editOk).reply
            = (updateNote db u (k :: a :: rest) (!editOk)).reply)
      ∧ (∃ rec2, (updateNote db u (k :: a :: rest) editOk).db.findByKeyUser k u
          = some rec2 ∧ rec2.custom_note = String.intercalate " " (a :: rest)) := by
  have heq : ∀ e : Bool, updateNote db u (k :: a :: rest) e
      = ⟨⟨db.rows.map (fun r => if r.rid == rec.rid
            then { r with custom_note := String.intercalate " " (a :: rest) } else r),
          db.nextId⟩,
        "✅ 备注已更新为: " ++ String.intercalate " " (a :: rest),
        [.lookupKeyUser k u],
        (if optTruthy rec.channel_msg_id && rec.file_type != "batch"
          then [(rec.channel_msg_id.getD 0,
            fullCaption k (String.intercalate " " (a :: rest)))] else []),
        [],
        (if (if optTruthy rec.channel_msg_id && rec.file_type != "batch"
              then [(rec.channel_msg_id.getD 0,
                fullCaption k (String.intercalate " " (a :: rest)))] else []).isEmpty
            || e
          then [] else ["频道备注更新失败"])⟩ := by
    intro e
    simp [updateNote, hfind]
  refine ⟨?_, ?_, ?_, ?_, ?_⟩
  · rw [heq editOk]
  · intro hb
    rw [heq editOk]
    simp [hb]
  · intro m hnb hm hm0
    rw [heq editOk]
    simp [optTruthy, hm, hm0, hnb]
  · rw [heq editOk, heq (!editOk)]
    exact ⟨rfl, rfl⟩
  · rw [heq editOk]
    show ∃ rec2, Store.findByKeyUser
        ⟨db.rows.map (fun r => if r.rid == rec.rid
            then { r with custom_note := String.intercalate " " (a :: rest) } else r),
          db.nextId⟩ k u = some rec2
      ∧ rec2.custom_note = String.intercalate " " (a :: rest)
    rw [findByKeyUser_map_note db rec.rid (String.intercalate " " (a :: rest)) k u,
      hfind]
    simp only [Option.map_some']
    exact ⟨_, rfl, by simp⟩

/-- C10 witness: against a store holding a replicated photo artifact
(channel message 5) and a replicated batch artifact, renaming the photo
artifact edits exactly message 5 while renaming the batch artifact edits
nothing, and a failing edit changes neither the store nor the reply. -/
theorem c10_witness :
    ((updateNote storeTwo 9 ["AAAAAAAA", "new"] false).edits
        = [(5, fullCaption "AAAAAAAA" (String.intercalate " " ("new" :: [])))])
      ∧ ((updateNote storeTwo 9 ["CCCCCCCC", "new"] false).edits = [])
      ∧ ((updateNote storeTwo 9 ["AAAAAAAA", "new"] false).db
          = (updateNote storeTwo 9 ["AAAAAAAA", "new"] (!false)).db)
      ∧ ((updateNote storeTwo 9 ["AAAAAAAA", "new"] false).reply
          = (updateNote storeTwo 9 ["AAAAAAAA", "new"] (!false)).reply)
      ∧ (∃ rec2, (updateNote storeTwo 9 ["AAAAAAAA", "new"] false).db.findByKeyUser
            "AAAAAAAA" 9 = some rec2
          ∧ rec2.custom_note = String.intercalate " " ("new" :: [])) :=
  ⟨(rename_channel_edit storeTwo 9 "AAAAAAAA"
      ⟨1, 9, "photo", .str "x", "AAAAAAAA", "name", "note", some 5⟩ "new" [] false
      (by decide)).2.2.1 5 (by decide) (by decide) (by decide),
    (rename_channel_edit storeTwo 9 "CCCCCCCC"
      ⟨2, 9, "batch", .batchData [⟨.photo, "p"⟩], "CCCCCCCC", "文件合集", "note2", some 6⟩
      "new" [] false (by decide)).2.1 (by decide),
    (rename_channel_edit storeTwo 9 "AAAAAAAA"
      ⟨1, 9, "photo", .str "x", "AAAAAAAA", "name", "note", some 5⟩ "new" [] false
      (by decide)).2.2.2.1.1,
    (rename_channel_edit storeTwo 9 "AAAAAAAA"
      ⟨1, 9, "photo", .str "x", "AAAAAAAA", "name", "note", some 5⟩ "new" [] false
      (by decide)).2.2.2.1.2,
    (rename_channel_edit storeTwo 9 "AAAAAAAA"
      ⟨1, 9, "photo", .str "x", "AAAAAAAA", "name", "note", some 5⟩ "new" [] false
      (by decide)).2.2.2.2⟩

end TgFileBot
